import Mathlib

/-!
Verification of the benchmark engine of the `webui_nim_benchmark` repository.

The development shallowly embeds the parts of the code that the verified
properties speak about:

* `app/services/benchmark.py` — the Load Executor (`execute_benchmark` and
  its inner per-request closure `make_request`);
* `app/services/autobenchmark.py` — the Auto-Tuner (`find_best_config`,
  `find_max_token_size`, the single-flight guard of `run_auto_benchmark`);
* `app/utils/metrics.py` — the Telemetry Sampler (`reset_peaks`, `get_peaks`).

Latencies, throughputs and wall-clock durations are modelled as rationals
(the Python code uses floats; all the verified properties are exact
comparisons and guarded divisions, so exact arithmetic is the faithful
reading).  Network behaviour is modelled as an explicit observation per
request (`ReqObs`): what status the backend answered, which stream lines
arrived, whether an exception interrupted the request.
-/

namespace NimBench

/-- One parsed streaming chunk, as `make_request` inspects it
(benchmark.py lines 95-119): whether `chunk.get('response')` is truthy and
the optional authoritative `eval_count` field. -/
structure Chunk where
  response : Bool
  eval_count : Option Nat
deriving Repr, DecidableEq

/-- One line of a streaming response body: `none` models a line on which
`json.loads` raises `JSONDecodeError` (benchmark.py line 118), `some c` a
successfully parsed chunk. -/
abbrev StreamLine := Option Chunk

/-- The parsed JSON body of a non-streaming response (benchmark.py lines
129-147): the optional `eval_count` field and the whitespace-token count
of the `response` text used as fallback. -/
structure RespBody where
  eval_count : Option Nat
  response_words : Nat
deriving Repr, DecidableEq

/-- Everything the environment decides about one request issued by
`make_request` (benchmark.py lines 63-159).  `connError` models an
exception raised before/at the HTTP exchange (connection error, timeout);
`status` is the HTTP status; `streamLines` are the lines observed while
iterating a streaming body, `streamAborted` an exception raised during
that iteration (after the listed lines were processed); `jsonParsed` is
the parse result of a non-streaming body, `none` when `response.json()`
raises; `latency` and `ttft` are the wall-clock measurements the code
takes with `datetime.now()`. -/
structure ReqObs where
  connError : Bool
  status : Nat
  streamLines : List StreamLine
  streamAborted : Bool
  jsonParsed : Option RespBody
  latency : ℚ
  ttft : ℚ
deriving Repr, DecidableEq

/-- The mutable accumulator shared by all requests of one run
(benchmark.py lines 28-33): `success_count`, `total_tokens`, `latencies`
and `ttfts`.  (`total_latency` is `latencies.sum`, and the inter-token
latency list needs per-chunk wall-clock timestamps; neither is used by
any verified property, so they are not tracked here.) -/
structure Accum where
  success_count : Nat
  total_tokens : Nat
  latencies : List ℚ
  ttfts : List ℚ
deriving Repr, DecidableEq

/-- The accumulator at the start of a run (benchmark.py lines 28-32). -/
def Accum.init : Accum := ⟨0, 0, [], []⟩

/-- Token counting over the lines of a streaming response
(benchmark.py lines 95-119): a malformed line is skipped (`continue`);
a chunk carrying `eval_count` overwrites the running count with it;
otherwise a content-bearing chunk increments the count by one. -/
def streamTokensAux : Nat → List StreamLine → Nat
  | t, [] => t
  | t, none :: rest => streamTokensAux t rest
  | t, some c :: rest =>
    match c.eval_count with
    | some n => streamTokensAux n rest
    | none => streamTokensAux (if c.response then t + 1 else t) rest

/-- Tokens counted for one streaming response, starting from `tokens = 0`
(benchmark.py line 92). -/
def streamTokens (lines : List StreamLine) : Nat := streamTokensAux 0 lines

/-- Whether any parsed line of the stream carries content — exactly when
the code records a time-to-first-token (benchmark.py lines 99-102). -/
def streamHasContent (lines : List StreamLine) : Bool :=
  lines.any fun l => match l with | some c => c.response | none => false

/-- Tokens of a non-streaming body (benchmark.py lines 132-147): the
authoritative `eval_count` when present, else the whitespace-token count
of the response text. -/
def bodyTokens (b : RespBody) : Nat :=
  match b.eval_count with
  | some n => n
  | none => b.response_words

/-- The per-request closure `make_request` (benchmark.py lines 63-159),
as a state transformer on the shared accumulator.  Every failure path —
exception (`connError`), non-200 status, exception while iterating the
stream, JSON body that fails to parse — is caught by the closure's
`try/except` (or returns early at line 88) and leaves the success/token/
latency state untouched.  On a streaming request the time-to-first-token
is appended as soon as the first content chunk is seen (lines 99-102),
so it survives a later stream abort. -/
def make_request (use_streaming : Bool) (o : ReqObs) (acc : Accum) : Accum :=
  if o.connError then acc
  else if o.status ≠ 200 then acc
  else if use_streaming then
    let acc1 :=
      if streamHasContent o.streamLines then
        { acc with ttfts := acc.ttfts ++ [o.ttft] }
      else acc
    if o.streamAborted then acc1
    else
      { acc1 with
          success_count := acc1.success_count + 1
          total_tokens := acc1.total_tokens + streamTokens o.streamLines
          latencies := acc1.latencies ++ [o.latency] }
  else
    match o.jsonParsed with
    | none => acc
    | some b =>
      { acc with
          success_count := acc.success_count + 1
          total_tokens := acc.total_tokens + bodyTokens b
          latencies := acc.latencies ++ [o.latency]
          ttfts := acc.ttfts ++ [o.latency] }

/-- The per-run configuration fields `execute_benchmark` reads
(benchmark.py lines 42-63 and 162-223).  `concurrency_level` only sizes
the semaphore, which does not affect which requests run or what they
accumulate, so it carries no behaviour here. -/
structure Config where
  total_requests : Nat
  concurrency_level : Nat
  stream : Bool
  batch_size : Nat
deriving Repr, DecidableEq

/-- Effective batch size (benchmark.py line 45):
`config.get('batch_size', 1) if not use_streaming else 1`. -/
def effectiveBatchSize (use_streaming : Bool) (batch_size : Nat) : Nat :=
  if use_streaming then 1 else batch_size

/-- Python `range(0, stop, step)` for positive `step`: the multiples of
`step` below `stop`. -/
def pyRangeStep (stop step : Nat) : List Nat :=
  (List.range ((stop + step - 1) / step)).map (· * step)

/-- The batch partition of benchmark.py lines 164-165:
`[list(range(i, min(i + batch_size, total_requests)))
  for i in range(0, total_requests, batch_size)]`. -/
def mkBatches (total_requests batch_size : Nat) : List (List Nat) :=
  (pyRangeStep total_requests batch_size).map fun i =>
    List.range' i (min (i + batch_size) total_requests - i)

/-- Folding `make_request` over the requests named by a list of indices,
each index looking up its observation (an index outside `obss` leaves the
state unchanged; the theorems only use in-range indices). -/
def runIndices (use_streaming : Bool) (obss : List ReqObs)
    (idxs : List Nat) (a : Accum) : Accum :=
  idxs.foldl
    (fun acc i =>
      match obss.get? i with
      | some o => make_request use_streaming o acc
      | none => acc)
    a

/-- The accumulator produced by the request-issuing phase of
`execute_benchmark` (benchmark.py lines 161-176): batched mode runs the
batches of `mkBatches` one after the other, each batch gathered to
completion before the next; otherwise all `total_requests` requests are
gathered at once.  Either way the per-request effects fold over the
shared accumulator. -/
def benchAccum (cfg : Config) (obss : List ReqObs) : Accum :=
  let use_streaming := cfg.stream
  let batch_size := effectiveBatchSize use_streaming cfg.batch_size
  if !use_streaming && batch_size > 1 then
    (mkBatches cfg.total_requests batch_size).foldl
      (fun a batch => runIndices use_streaming obss batch a) Accum.init
  else
    runIndices use_streaming obss (List.range cfg.total_requests) Accum.init

/-- The p95 index of benchmark.py line 190: `int(len * 0.95)`, i.e. the
floor of `0.95 * n` (exact, since `0.95 * n` stays far from integer
boundaries for any realistic `n`). -/
def p95Index (n : Nat) : Nat := n * 95 / 100

/-- The metrics record `execute_benchmark` returns (benchmark.py lines
203-223), restricted to the fields derived from the request samples and
the configuration.  (The GPU/peak-telemetry fields are read from the
background `metrics_collector` and are outside the per-run data path.) -/
structure Metrics where
  tokens_per_second : ℚ
  latency : ℚ
  p95_latency : ℚ
  time_to_first_token : ℚ
  total_tokens : Nat
  successful_requests : Nat
  failed_requests : ℤ
  streaming_enabled : Bool
  batch_size : Nat
deriving Repr, DecidableEq

/-- The Load Executor `execute_benchmark` (benchmark.py lines 18-234):
issue the requests (given here as the observation list `obss`, one per
request index), then — if any latency was collected — reduce to a metrics
record; with no successful request it raises
`Exception("No successful requests completed")` (line 179), modelled as
`Except.error`.  `wall_clock_duration` is the elapsed wall-clock seconds
measured at line 185. -/
def execute_benchmark (cfg : Config) (obss : List ReqObs)
    (wall_clock_duration : ℚ) : Except String Metrics :=
  let use_streaming := cfg.stream
  let batch_size := effectiveBatchSize use_streaming cfg.batch_size
  let acc := benchAccum cfg obss
  if acc.latencies = [] then Except.error "No successful requests completed"
  else
    let wall_clock_tps : ℚ :=
      if wall_clock_duration > 0 then
        (acc.total_tokens : ℚ) / wall_clock_duration
      else 0
    let sorted_latencies := acc.latencies.insertionSort (· ≤ ·)
    let p95_idx := p95Index sorted_latencies.length
    let p95_latency := sorted_latencies.getD p95_idx 0
    let avg_ttft : ℚ :=
      if acc.ttfts = [] then 0 else acc.ttfts.sum / acc.ttfts.length
    Except.ok
      { tokens_per_second := wall_clock_tps
        latency := acc.latencies.sum / acc.latencies.length
        p95_latency := p95_latency
        time_to_first_token := avg_ttft
        total_tokens := acc.total_tokens
        successful_requests := acc.success_count
        failed_requests := (cfg.total_requests : ℤ) - (acc.success_count : ℤ)
        streaming_enabled := use_streaming
        batch_size := batch_size }

/-! ### Auto-Tuner (`app/services/autobenchmark.py`) -/

/-- The minimum-acceptable-throughput threshold
(autobenchmark.py line 24): `self.MIN_ACCEPTABLE_TPS = 12.0`. -/
def MIN_ACCEPTABLE_TPS : ℚ := 12

/-- One entry of the Auto-Tuner's test list as `find_best_config` reads
it (autobenchmark.py lines 105-116 and 313-328): whether the record is an
error entry (`"error" in t`), its throughput, mean latency, and the
configuration fields carried along. -/
structure TestRecord where
  hasError : Bool
  tokens_per_second : ℚ
  latency : ℚ
  concurrency : Nat
  streaming : Bool
  batch_size : Nat
deriving Repr, DecidableEq

/-- Python `max(xs, key=f)` over a non-empty list, given as head and
tail: keeps the current element unless a later one is strictly greater,
so ties resolve to the earliest element. -/
def pyMaxBy (f : TestRecord → ℚ) (x : TestRecord) (xs : List TestRecord) :
    TestRecord :=
  xs.foldl (fun b y => if f b < f y then y else b) x

/-- Python `min(xs, key=f)` over a non-empty list, given as head and
tail: keeps the current element unless a later one is strictly smaller. -/
def pyMinBy (f : TestRecord → ℚ) (x : TestRecord) (xs : List TestRecord) :
    TestRecord :=
  xs.foldl (fun b y => if f y < f b then y else b) x

/-- Python `sorted(tests, key=lambda x, reverse=True)` on the throughput
key (autobenchmark.py line 350): a stable descending sort. -/
def sortByTpsDesc (tests : List TestRecord) : List TestRecord :=
  tests.insertionSort fun a b => b.tokens_per_second ≤ a.tokens_per_second

/-- The record filter of autobenchmark.py line 346:
no error and throughput at or above the threshold. -/
def validTests (tests : List TestRecord) : List TestRecord :=
  tests.filter fun t =>
    !t.hasError && decide (MIN_ACCEPTABLE_TPS ≤ t.tokens_per_second)

/-- The Auto-Tuner's selection rule `_find_best_config`
(autobenchmark.py lines 340-370).  Empty test list: `None`.  No
qualifying record: the head of the tests sorted by descending throughput.
Otherwise: take the maximum-throughput qualifying record, keep the
qualifying records within 10% of its throughput, and return the one with
the lowest latency. -/
def find_best_config (tests : List TestRecord) : Option TestRecord :=
  match tests with
  | [] => none
  | _ :: _ =>
    match validTests tests with
    | [] =>
      match sortByTpsDesc tests with
      | [] => none
      | b :: _ => some b
    | v :: vs =>
      let best_throughput := pyMaxBy (·.tokens_per_second) v vs
      let near_best := (validTests tests).filter fun t =>
        best_throughput.tokens_per_second * (9 / 10) ≤ t.tokens_per_second
      match near_best with
      | [] => some best_throughput
      | n :: ns => some (pyMinBy (·.latency) n ns)

/-- The fixed descending candidate list of the capacity probe
(autobenchmark.py line 243): `test_sizes = [512, 256, 128, 64, 32]`. -/
def test_sizes : List Nat := [512, 256, 128, 64, 32]

/-- The loop of `_find_max_token_size` (autobenchmark.py lines 245-267)
over a candidate list: each candidate is tested by a benchmark run with
`total_requests = 2`; the oracle `test size requests` says whether that
run succeeds (returns a record with no error and no exception).  The
first succeeding size is returned; if every candidate fails, the safe
minimum 32 is returned. -/
def probeSizes (test : Nat → Nat → Bool) : List Nat → Nat
  | [] => 32
  | s :: rest => if test s 2 then s else probeSizes test rest

/-- The capacity probe `_find_max_token_size`
(autobenchmark.py lines 241-267), over the fixed candidate list. -/
def find_max_token_size (test : Nat → Nat → Bool) : Nat :=
  probeSizes test test_sizes

/-- The caller-side fallback of `run_auto_benchmark`
(autobenchmark.py lines 59-64): the probe's result when it returns, and
the conservative default 32 when the probe itself raises. -/
def maxSupportedTokens (probe : Except String Nat) : Nat :=
  match probe with
  | Except.ok n => n
  | Except.error _ => 32

/-- The Auto-Tuner session state shared across calls
(autobenchmark.py lines 19-21): the in-progress results (abstracted to a
type parameter `R`), the single-flight flag and the cooperative stop
flag. -/
structure AutoTuneState (R : Type) where
  current_results : R
  is_running : Bool
  should_stop : Bool
deriving Repr, DecidableEq

/-- The entry of `run_auto_benchmark` (autobenchmark.py lines 38-45):
when a search is already running it raises
`Exception("Auto-benchmark is already running")` before touching any
state; otherwise it marks the session running, clears the stop flag and
hands over to the body of the search (lines 46-239), abstracted here as
`body`.  The result pairs the final session state with the outcome. -/
def run_auto_benchmark {R : Type}
    (st : AutoTuneState R)
    (body : AutoTuneState R → AutoTuneState R × Except String R) :
    AutoTuneState R × Except String R :=
  if st.is_running then
    (st, Except.error "Auto-benchmark is already running")
  else
    body { st with is_running := true, should_stop := false }

/-! ### Telemetry Sampler (`app/utils/metrics.py`) -/

/-- The state of the `MetricsCollector` singleton
(metrics.py lines 12-19), with the snapshot type of
`historical_metrics` abstracted to a parameter `S` (snapshots are
produced by hardware probes and never read by `get_peaks`). -/
structure MetricsCollector (S : Type) where
  peak_tps : ℚ
  peak_gpu_util : ℚ
  peak_gpu_mem : ℚ
  tokens_count : Nat
  tokens_last_window : Nat
  last_update : ℚ
  historical_metrics : List S

/-- The peak-metrics record returned by `get_peaks`
(metrics.py lines 172-180). -/
structure PeakTelemetry where
  peak_tps : ℚ
  peak_gpu_util : ℚ
  peak_gpu_mem : ℚ
  total_tokens : Nat
deriving Repr, DecidableEq

/-- `reset_peaks` (metrics.py lines 182-191): zero all peak and counter
state, stamp `last_update` with the current time, clear the snapshot
history. -/
def reset_peaks {S : Type} (now : ℚ) (mc : MetricsCollector S) :
    MetricsCollector S :=
  { mc with
      peak_tps := 0
      peak_gpu_util := 0
      peak_gpu_mem := 0
      tokens_count := 0
      tokens_last_window := 0
      last_update := now
      historical_metrics := [] }

/-- `get_peaks` (metrics.py lines 172-180). -/
def get_peaks {S : Type} (mc : MetricsCollector S) : PeakTelemetry :=
  ⟨mc.peak_tps, mc.peak_gpu_util, mc.peak_gpu_mem, mc.tokens_count⟩

/-! ### Concrete inputs used by the witnesses -/

/-- A request observation that fails with a connection error before any
response is read. -/
def connFailObs : ReqObs := ⟨true, 200, [], false, some ⟨some 10, 0⟩, 1, 1⟩

/-- A successful non-streaming request observation: status 200, a body
reporting `eval_count = 10`, latency 5 ms. -/
def okObs : ReqObs := ⟨false, 200, [], false, some ⟨some 10, 0⟩, 5, 5⟩

/-- A one-request non-streaming configuration. -/
def cfgOne : Config := ⟨1, 1, false, 1⟩

/-- A zero-request configuration. -/
def cfgZero : Config := ⟨0, 1, false, 1⟩

/-- The metrics record produced by `execute_benchmark cfgOne [okObs] 1`. -/
def okMetrics : Metrics := ⟨10, 5, 5, 5, 10, 1, 0, false, 1⟩

/-- The three test records of the selection-rule example in the spec:
throughputs 100/95/60, mean latencies 50/20/10, at concurrency 8/16/32. -/
def exampleTests : List TestRecord :=
  [⟨false, 100, 50, 8, true, 1⟩, ⟨false, 95, 20, 16, true, 1⟩,
   ⟨false, 60, 10, 32, true, 1⟩]

/-- An Auto-Tuner session that is currently running. -/
def runningState : AutoTuneState Nat := ⟨0, true, false⟩

/-- A trivial search body, for instantiating the single-flight guard. -/
def idleBody : AutoTuneState Nat → AutoTuneState Nat × Except String Nat :=
  fun s => (s, Except.ok 0)

/-! ## Helper lemmas -/

theorem streamTokensAux_parsed (lines : List StreamLine) :
    ∀ t, streamTokensAux t ((lines.filterMap id).map some) = streamTokensAux t lines := by
  induction lines with
  | nil => intro t; rfl
  | cons l rest ih =>
    intro t
    cases l with
    | none => simpa [streamTokensAux] using ih t
    | some c =>
      cases hc : c.eval_count with
      | some n => simp [streamTokensAux, hc, ih]
      | none => simp [streamTokensAux, hc, ih]

theorem streamHasContent_parsed (lines : List StreamLine) :
    streamHasContent ((lines.filterMap id).map some) = streamHasContent lines := by
  induction lines with
  | nil => rfl
  | cons l rest ih =>
    cases l with
    | none => simpa [streamHasContent] using ih
    | some c =>
      show (c.response || streamHasContent ((rest.filterMap id).map some))
          = (c.response || streamHasContent rest)
      rw [ih]

theorem make_request_step (s : Bool) (o : ReqObs) (acc : Accum) :
    ((make_request s o acc).success_count = acc.success_count ∧
      (make_request s o acc).latencies = acc.latencies ∧
      (make_request s o acc).total_tokens = acc.total_tokens) ∨
    ((make_request s o acc).success_count = acc.success_count + 1 ∧
      ∃ x, (make_request s o acc).latencies = acc.latencies ++ [x]) := by
  unfold make_request
  by_cases h1 : o.connError = true
  · exact Or.inl (by simp [h1])
  · by_cases h2 : o.status = 200
    · cases s with
      | false =>
        cases hj : o.jsonParsed with
        | none => exact Or.inl (by simp [h1, h2, hj])
        | some b => exact Or.inr (by simp [h1, h2, hj])
      | true =>
        by_cases h3 : o.streamAborted = true
        · refine Or.inl ?_
          by_cases h4 : streamHasContent o.streamLines <;> simp [h1, h2, h3, h4]
        · refine Or.inr ?_
          by_cases h4 : streamHasContent o.streamLines <;> simp [h1, h2, h3, h4]
    · exact Or.inl (by simp [h1, h2])

theorem runIndices_cons (s : Bool) (obss : List ReqObs) (i : Nat) (rest : List Nat)
    (a : Accum) :
    runIndices s obss (i :: rest) a
      = runIndices s obss rest
          (match obss.get? i with
           | some o => make_request s o a
           | none => a) := rfl

theorem runIndices_lat_len (s : Bool) (obss : List ReqObs) (idxs : List Nat) :
    ∀ a : Accum,
      (runIndices s obss idxs a).latencies.length + a.success_count
        = (runIndices s obss idxs a).success_count + a.latencies.length := by
  induction idxs with
  | nil => intro a; simp [runIndices, Nat.add_comm]
  | cons i rest ih =>
    intro a
    rw [runIndices_cons]
    cases hg : obss.get? i with
    | none => simpa [hg] using ih a
    | some o =>
      simp only [hg]
      have hstep := make_request_step s o a
      have hrest := ih (make_request s o a)
      rcases hstep with ⟨hs, hl, _⟩ | ⟨hs, x, hl⟩
      · rw [hs, hl] at hrest; omega
      · rw [hs, hl] at hrest; simp only [List.length_append, List.length_singleton] at hrest
        omega

theorem runIndices_succ_le (s : Bool) (obss : List ReqObs) (idxs : List Nat) :
    ∀ a : Accum,
      (runIndices s obss idxs a).success_count ≤ a.success_count + idxs.length := by
  induction idxs with
  | nil => intro a; simp [runIndices]
  | cons i rest ih =>
    intro a
    rw [runIndices_cons]
    cases hg : obss.get? i with
    | none =>
      simp only [hg]
      have := ih a
      simp only [List.length_cons]
      omega
    | some o =>
      simp only [hg]
      have hstep := make_request_step s o a
      have hrest := ih (make_request s o a)
      simp only [List.length_cons]
      rcases hstep with ⟨hs, _, _⟩ | ⟨hs, _, _⟩ <;> rw [hs] at hrest <;> omega

theorem ceil_div_mul_ge (total bs : Nat) (hbs : 1 ≤ bs) :
    total ≤ ((total + bs - 1) / bs) * bs := by
  have hdm := Nat.div_add_mod (total + bs - 1) bs
  have hlt : (total + bs - 1) % bs < bs := Nat.mod_lt _ (by omega)
  rw [Nat.mul_comm]
  generalize hq : (total + bs - 1) / bs = q at *
  generalize hr : (total + bs - 1) % bs = r at *
  generalize hm : bs * q = m at *
  omega

theorem flatten_batches_aux (bs total : Nat) :
    ∀ k : Nat,
      (((List.range k).map fun j =>
          List.range' (j * bs) (min (j * bs + bs) total - j * bs)).flatten)
        = List.range (min (k * bs) total) := by
  intro k
  induction k with
  | zero => simp
  | succ k ih =>
    rw [List.range_succ, List.map_append, List.flatten_append, ih]
    simp only [List.map_cons, List.map_nil, List.flatten_cons, List.flatten_nil,
      List.append_nil]
    rcases le_or_lt total (k * bs) with h | h
    · have h1 : min (k * bs) total = total := by omega
      have h2 : min (k * bs + bs) total = total := by omega
      have h3 : min ((k + 1) * bs) total = total := by
        rw [Nat.succ_mul]; omega
      rw [h1, h2, h3, Nat.sub_eq_zero_of_le h, List.range'_zero, List.append_nil]
    · have h1 : min (k * bs) total = k * bs := by omega
      rw [h1, List.range_eq_range', List.range_eq_range']
      have h2 : k * bs ≤ min (k * bs + bs) total := by omega
      have := List.range'_append_1 0 (k * bs) (min (k * bs + bs) total - k * bs)
      simp only [Nat.zero_add] at this
      rw [this]
      congr 1
      rw [Nat.succ_mul]
      omega

theorem mkBatches_flatten (total bs : Nat) (hbs : 1 ≤ bs) :
    (mkBatches total bs).flatten = List.range total := by
  unfold mkBatches pyRangeStep
  rw [List.map_map]
  have := flatten_batches_aux bs total ((total + bs - 1) / bs)
  simp only [Function.comp_def] at this ⊢
  rw [this]
  congr 1
  have := ceil_div_mul_ge total bs hbs
  omega

theorem foldl_runIndices_flatten (s : Bool) (obss : List ReqObs)
    (L : List (List Nat)) (a : Accum) :
    L.foldl (fun a batch => runIndices s obss batch a) a
      = runIndices s obss L.flatten a := by
  unfold runIndices
  rw [List.foldl_flatten]

theorem benchAccum_eq_runIndices (cfg : Config) (obss : List ReqObs) :
    benchAccum cfg obss
      = runIndices cfg.stream obss (List.range cfg.total_requests) Accum.init := by
  simp only [benchAccum]
  split
  · rename_i h
    simp only [Bool.and_eq_true, Bool.not_eq_true', decide_eq_true_eq] at h
    obtain ⟨hs, hb⟩ := h
    have hbs : 1 ≤ effectiveBatchSize cfg.stream cfg.batch_size := by omega
    rw [foldl_runIndices_flatten, mkBatches_flatten _ _ hbs]
  · rfl

theorem benchAccum_lat_len (cfg : Config) (obss : List ReqObs) :
    (benchAccum cfg obss).latencies.length = (benchAccum cfg obss).success_count := by
  rw [benchAccum_eq_runIndices]
  have := runIndices_lat_len cfg.stream obss (List.range cfg.total_requests) Accum.init
  simpa [Accum.init] using this

theorem benchAccum_succ_le (cfg : Config) (obss : List ReqObs) :
    (benchAccum cfg obss).success_count ≤ cfg.total_requests := by
  rw [benchAccum_eq_runIndices]
  have := runIndices_succ_le cfg.stream obss (List.range cfg.total_requests) Accum.init
  simpa [Accum.init] using this

theorem execute_benchmark_ok_spec {cfg : Config} {obss : List ReqObs} {dur : ℚ}
    {m : Metrics} (h : execute_benchmark cfg obss dur = Except.ok m) :
    (benchAccum cfg obss).latencies ≠ [] ∧
    m = { tokens_per_second :=
            if dur > 0 then ((benchAccum cfg obss).total_tokens : ℚ) / dur else 0
          latency := (benchAccum cfg obss).latencies.sum
            / ((benchAccum cfg obss).latencies.length : ℚ)
          p95_latency :=
            ((benchAccum cfg obss).latencies.insertionSort (· ≤ ·)).getD
              (p95Index ((benchAccum cfg obss).latencies.insertionSort (· ≤ ·)).length) 0
          time_to_first_token :=
            if (benchAccum cfg obss).ttfts = [] then 0
            else (benchAccum cfg obss).ttfts.sum / ((benchAccum cfg obss).ttfts.length : ℚ)
          total_tokens := (benchAccum cfg obss).total_tokens
          successful_requests := (benchAccum cfg obss).success_count
          failed_requests :=
            (cfg.total_requests : ℤ) - ((benchAccum cfg obss).success_count : ℤ)
          streaming_enabled := cfg.stream
          batch_size := effectiveBatchSize cfg.stream cfg.batch_size } := by
  unfold execute_benchmark at h
  by_cases hl : (benchAccum cfg obss).latencies = []
  · rw [if_pos hl] at h
    exact absurd h (by simp)
  · rw [if_neg hl] at h
    exact ⟨hl, (Except.ok.injEq _ _ ▸ h).symm⟩

theorem p95Index_lt (n : Nat) (h : 1 ≤ n) : p95Index n < n := by
  unfold p95Index
  omega

theorem probeSizes_first (test : Nat → Nat → Bool) :
    ∀ l : List Nat,
      (∀ s : Nat, l.find? (fun x => test x 2) = some s → probeSizes test l = s) ∧
      ((∀ s ∈ l, test s 2 = false) → probeSizes test l = 32) := by
  intro l
  induction l with
  | nil => exact ⟨fun s h => by simp [List.find?] at h, fun _ => rfl⟩
  | cons a rest ih =>
    constructor
    · intro s h
      rw [List.find?_cons] at h
      by_cases ht : test a 2 = true
      · rw [ht] at h
        simp only [Option.some.injEq] at h
        subst h
        simp [probeSizes, ht]
      · rw [Bool.of_not_eq_true ht] at h
        simp [probeSizes, Bool.of_not_eq_true ht, ih.1 s h]
    · intro hall
      have ha : test a 2 = false := hall a (by simp)
      simp [probeSizes, ha, ih.2 fun s hs => hall s (by simp [hs])]

/-! ## Claim theorems -/

/-- Claim C8: calling `reset_peaks` on the Telemetry Sampler and then
immediately `get_peaks` yields all-zero values — zero peak token
throughput, zero peak accelerator utilization, zero peak accelerator
memory, and zero cumulative tokens. -/
theorem C8_reset_then_peaks_zero {S : Type} (mc : MetricsCollector S) (now : ℚ) :
    get_peaks (reset_peaks now mc) = ⟨0, 0, 0, 0⟩ := rfl

/-- Claim C7: a call to the Auto-Tuner's search while one is already
running (`is_running = true`) fails immediately with the distinct
"already running" error and returns with the session state unchanged —
the body of the search (which would mutate `current_results`,
`is_running` and `should_stop`) is never entered. -/
theorem C7_second_search_rejected {R : Type} (st : AutoTuneState R)
    (body : AutoTuneState R → AutoTuneState R × Except String R)
    (h : st.is_running = true) :
    run_auto_benchmark st body
      = (st, Except.error "Auto-benchmark is already running") := by
  simp [run_auto_benchmark, h]

/-- Witness for C7: a running session with any body is rejected unchanged. -/
theorem C7_witness :
    runningState.is_running = true ∧
    run_auto_benchmark runningState idleBody
      = (runningState, Except.error "Auto-benchmark is already running") :=
  ⟨rfl, C7_second_search_rejected runningState idleBody rfl⟩

/-- Claim C6: the Auto-Tuner's capacity probe tries the fixed descending
candidate list `[512, 256, 128, 64, 32]`, testing each size with a
2-request run, and returns the first size whose test succeeds; when every
candidate fails it returns the conservative default 32, and when the
probe itself raises its caller falls back to 32 as well. -/
theorem C6_capacity_probe (test : Nat → Nat → Bool) :
    test_sizes = [512, 256, 128, 64, 32] ∧
    (∀ s : Nat, test_sizes.find? (fun x => test x 2) = some s →
      find_max_token_size test = s) ∧
    ((∀ s ∈ test_sizes, test s 2 = false) → find_max_token_size test = 32) ∧
    (∀ e : String, maxSupportedTokens (Except.error e) = 32) :=
  ⟨rfl, (probeSizes_first test test_sizes).1, (probeSizes_first test test_sizes).2,
    fun _ => rfl⟩

/-- Witness for C6: an oracle on which only size 256 succeeds makes the
probe return 256, the first succeeding candidate. -/
theorem C6_witness :
    test_sizes.find? (fun x => decide (x = 256)) = some 256 ∧
    find_max_token_size (fun s _ => decide (s = 256)) = 256 :=
  ⟨by decide,
    (C6_capacity_probe fun s _ => decide (s = 256)).2.1 256 (by decide)⟩

/-- Claim C4: a failed request — connection error or timeout, non-2xx
status, an exception in mid-stream, or a malformed non-streaming body —
leaves the success count, token sum and latency list unchanged and is
absorbed by the per-request handler (modelled by `make_request` being a
total function on the accumulator); and a malformed chunk inside an
otherwise-good stream is merely skipped: the request behaves exactly as
if only its well-formed chunks had arrived. -/
theorem C4_request_failures_absorbed (use_streaming : Bool) (o : ReqObs)
    (acc : Accum) :
    ((o.connError = true ∨ o.status ≠ 200 ∨
        (use_streaming = true ∧ o.streamAborted = true) ∨
        (use_streaming = false ∧ o.jsonParsed = none)) →
      (make_request use_streaming o acc).success_count = acc.success_count ∧
      (make_request use_streaming o acc).total_tokens = acc.total_tokens ∧
      (make_request use_streaming o acc).latencies = acc.latencies) ∧
    make_request true o acc
      = make_request true
          { o with streamLines := (o.streamLines.filterMap id).map some } acc := by
  constructor
  · intro hf
    rcases hf with h | h | ⟨rfl, h⟩ | ⟨rfl, h⟩
    · simp [make_request, h]
    · by_cases h1 : o.connError = true <;> simp [make_request, h1, h]
    · by_cases h1 : o.connError = true <;>
        by_cases h2 : o.status = 200 <;>
        by_cases h4 : streamHasContent o.streamLines = true <;>
        simp [make_request, h1, h2, h4, h]
    · by_cases h1 : o.connError = true <;>
        by_cases h2 : o.status = 200 <;>
        simp [make_request, h1, h2, h]
  · unfold make_request
    simp only [streamTokens, streamTokensAux_parsed, streamHasContent_parsed]

/-- Witness for C4: a connection-error request leaves the initial
accumulator's success count, token total and latency list unchanged. -/
theorem C4_witness :
    (connFailObs.connError = true ∨ connFailObs.status ≠ 200 ∨
      (false = true ∧ connFailObs.streamAborted = true) ∨
      (false = false ∧ connFailObs.jsonParsed = none)) ∧
    (make_request false connFailObs Accum.init).success_count
        = Accum.init.success_count ∧
    (make_request false connFailObs Accum.init).total_tokens
        = Accum.init.total_tokens ∧
    (make_request false connFailObs Accum.init).latencies
        = Accum.init.latencies :=
  ⟨Or.inl rfl,
    (C4_request_failures_absorbed false connFailObs Accum.init).1 (Or.inl rfl)⟩

/-- Claim C2: a run in which zero requests succeed — in particular any
run with `total_requests = 0` — makes `execute_benchmark` raise the
run-level error `"No successful requests completed"` instead of
returning a result record; conversely every returned record comes from a
run with at least one success and a non-empty latency list, so no
degenerate empty-list result is ever produced. -/
theorem C2_zero_success_raises (cfg : Config) (obss : List ReqObs) (dur : ℚ) :
    ((benchAccum cfg obss).success_count = 0 →
      execute_benchmark cfg obss dur
        = Except.error "No successful requests completed") ∧
    (∀ m : Metrics, execute_benchmark cfg obss dur = Except.ok m →
      (benchAccum cfg obss).latencies ≠ [] ∧
      1 ≤ (benchAccum cfg obss).success_count) := by
  constructor
  · intro h0
    have hlen := benchAccum_lat_len cfg obss
    have hnil : (benchAccum cfg obss).latencies = [] :=
      List.eq_nil_of_length_eq_zero (by omega)
    simp only [execute_benchmark]
    rw [if_pos hnil]
  · intro m hm
    have h := execute_benchmark_ok_spec hm
    refine ⟨h.1, ?_⟩
    have hlen := benchAccum_lat_len cfg obss
    have hne : (benchAccum cfg obss).latencies.length ≠ 0 := by
      intro hc; exact h.1 (List.eq_nil_of_length_eq_zero hc)
    omega

/-- Witness for C2: the zero-request configuration has a zero success
count and the run fails with the run-level error. -/
theorem C2_witness :
    (benchAccum cfgZero []).success_count = 0 ∧
    execute_benchmark cfgZero [] 1
      = Except.error "No successful requests completed" :=
  ⟨rfl, (C2_zero_success_raises cfgZero [] 1).1 rfl⟩

/-- Claim C9: the reported wall-clock `tokens_per_second` of a completed
run is exactly 0 when the elapsed wall-clock duration is 0 (never a
division by zero), and equals total tokens divided by the elapsed
duration whenever the duration is positive. -/
theorem C9_wall_clock_throughput (cfg : Config) (obss : List ReqObs) (dur : ℚ)
    (m : Metrics) (h : execute_benchmark cfg obss dur = Except.ok m) :
    (dur = 0 → m.tokens_per_second = 0) ∧
    (0 < dur →
      m.tokens_per_second = ((benchAccum cfg obss).total_tokens : ℚ) / dur) := by
  obtain ⟨-, rfl⟩ := execute_benchmark_ok_spec h
  constructor
  · intro h0
    simp [h0]
  · intro hp
    simp [hp]

/-- Witness for C9: a one-request run over one wall-clock second reports
its 10 tokens as 10 tokens per second. -/
theorem C9_witness :
    execute_benchmark cfgOne [okObs] 1 = Except.ok okMetrics ∧
    (0 < (1 : ℚ) →
      okMetrics.tokens_per_second
        = ((benchAccum cfgOne [okObs]).total_tokens : ℚ) / 1) := by
  have hEval : execute_benchmark cfgOne [okObs] 1 = Except.ok okMetrics := by
    norm_num [execute_benchmark, benchAccum, effectiveBatchSize, runIndices,
      make_request, okObs, cfgOne, okMetrics, Accum.init, bodyTokens, p95Index,
      List.insertionSort, List.orderedInsert, List.range_succ]
  exact ⟨hEval, (C9_wall_clock_throughput cfgOne [okObs] 1 okMetrics hEval).2⟩

/-- Claim C10: in every metrics record returned by `execute_benchmark`,
`successful_requests + failed_requests` equals the configured
`total_requests` (with the success count never exceeding it), and
`successful_requests` equals the number of accumulated latency samples —
each success appends exactly one latency. -/
theorem C10_request_accounting (cfg : Config) (obss : List ReqObs) (dur : ℚ)
    (m : Metrics) (h : execute_benchmark cfg obss dur = Except.ok m) :
    (m.successful_requests : ℤ) + m.failed_requests = (cfg.total_requests : ℤ) ∧
    m.successful_requests ≤ cfg.total_requests ∧
    m.successful_requests = (benchAccum cfg obss).latencies.length := by
  obtain ⟨-, rfl⟩ := execute_benchmark_ok_spec h
  refine ⟨?_, benchAccum_succ_le cfg obss, (benchAccum_lat_len cfg obss).symm⟩
  dsimp only
  ring

/-- Witness for C10: the one-request run's record has 1 success, 0
failures and one latency sample. -/
theorem C10_witness :
    execute_benchmark cfgOne [okObs] 1 = Except.ok okMetrics ∧
    ((okMetrics.successful_requests : ℤ) + okMetrics.failed_requests
        = (cfgOne.total_requests : ℤ) ∧
      okMetrics.successful_requests ≤ cfgOne.total_requests ∧
      okMetrics.successful_requests
        = (benchAccum cfgOne [okObs]).latencies.length) := by
  have hEval : execute_benchmark cfgOne [okObs] 1 = Except.ok okMetrics := by
    norm_num [execute_benchmark, benchAccum, effectiveBatchSize, runIndices,
      make_request, okObs, cfgOne, okMetrics, Accum.init, bodyTokens, p95Index,
      List.insertionSort, List.orderedInsert, List.range_succ]
  exact ⟨hEval, C10_request_accounting cfgOne [okObs] 1 okMetrics hEval⟩

/-- Claim C3: for every completed run the reported p95 latency is the
element of the ascending-sorted latency list at index
`floor(0.95 * n)` clamped to `[0, n-1]` (the code's unclamped
`int(n * 0.95)` never exceeds `n - 1`, so the clamp is satisfied). -/
theorem C3_p95_latency_index (cfg : Config) (obss : List ReqObs) (dur : ℚ)
    (m : Metrics) (h : execute_benchmark cfg obss dur = Except.ok m) :
    1 ≤ ((benchAccum cfg obss).latencies.insertionSort (· ≤ ·)).length ∧
    List.Sorted (· ≤ ·) ((benchAccum cfg obss).latencies.insertionSort (· ≤ ·)) ∧
    ((benchAccum cfg obss).latencies.insertionSort (· ≤ ·)).Perm
      (benchAccum cfg obss).latencies ∧
    m.p95_latency
      = ((benchAccum cfg obss).latencies.insertionSort (· ≤ ·)).getD
          (min
            (p95Index ((benchAccum cfg obss).latencies.insertionSort (· ≤ ·)).length)
            (((benchAccum cfg obss).latencies.insertionSort (· ≤ ·)).length - 1))
          0 := by
  obtain ⟨hne, rfl⟩ := execute_benchmark_ok_spec h
  have hperm := List.perm_insertionSort (· ≤ ·) (benchAccum cfg obss).latencies
  have hlen : 1 ≤ ((benchAccum cfg obss).latencies.insertionSort (· ≤ ·)).length := by
    have hL := hperm.length_eq
    have hnz : (benchAccum cfg obss).latencies.length ≠ 0 := fun hc =>
      hne (List.eq_nil_of_length_eq_zero hc)
    omega
  refine ⟨hlen, List.sorted_insertionSort _ _, hperm, ?_⟩
  have hidx := p95Index_lt _ hlen
  have hmin :
      min (p95Index ((benchAccum cfg obss).latencies.insertionSort (· ≤ ·)).length)
          (((benchAccum cfg obss).latencies.insertionSort (· ≤ ·)).length - 1)
        = p95Index ((benchAccum cfg obss).latencies.insertionSort (· ≤ ·)).length := by
    omega
  rw [hmin]

/-- Witness for C3: on the one-request run the p95 latency is the single
sorted sample at index floor(0.95) = 0. -/
theorem C3_witness :
    execute_benchmark cfgOne [okObs] 1 = Except.ok okMetrics ∧
    okMetrics.p95_latency
      = ((benchAccum cfgOne [okObs]).latencies.insertionSort (· ≤ ·)).getD
          (min
            (p95Index
              ((benchAccum cfgOne [okObs]).latencies.insertionSort (· ≤ ·)).length)
            (((benchAccum cfgOne [okObs]).latencies.insertionSort (· ≤ ·)).length - 1))
          0 := by
  have hEval : execute_benchmark cfgOne [okObs] 1 = Except.ok okMetrics := by
    norm_num [execute_benchmark, benchAccum, effectiveBatchSize, runIndices,
      make_request, okObs, cfgOne, okMetrics, Accum.init, bodyTokens, p95Index,
      List.insertionSort, List.orderedInsert, List.range_succ]
  exact ⟨hEval, (C3_p95_latency_index cfgOne [okObs] 1 okMetrics hEval).2.2.2⟩

theorem batch_start_lt (total bs j : Nat) (hbs : 1 ≤ bs)
    (hj : j < (total + bs - 1) / bs) : j * bs < total := by
  have hk : ((total + bs - 1) / bs) * bs ≤ total + bs - 1 := Nat.div_mul_le_self _ _
  have hj1 : (j + 1) * bs ≤ ((total + bs - 1) / bs) * bs :=
    Nat.mul_le_mul_right _ (by omega)
  have hsm : (j + 1) * bs = j * bs + bs := Nat.succ_mul j bs
  generalize hA : j * bs = A at *
  generalize hB : (j + 1) * bs = B at *
  generalize hC : ((total + bs - 1) / bs) * bs = C at *
  omega

theorem mkBatches_mem_length (total bs : Nat) (hbs : 1 ≤ bs) :
    ∀ b ∈ mkBatches total bs, 1 ≤ b.length ∧ b.length ≤ bs := by
  intro b hb
  unfold mkBatches pyRangeStep at hb
  rw [List.map_map] at hb
  obtain ⟨j, hj, rfl⟩ := List.mem_map.mp hb
  rw [List.mem_range] at hj
  have hlt := batch_start_lt total bs j hbs hj
  simp only [Function.comp_def, List.length_range']
  generalize hA : j * bs = A at *
  omega

theorem mkBatches_dropLast_length (total bs : Nat) (hbs : 1 ≤ bs) :
    ∀ b ∈ (mkBatches total bs).dropLast, b.length = bs := by
  intro b hb
  unfold mkBatches pyRangeStep at hb
  rw [List.map_map, ← List.map_dropLast] at hb
  obtain ⟨j, hj, rfl⟩ := List.mem_map.mp hb
  simp only [Function.comp_def, List.length_range']
  have hk2 : ((total + bs - 1) / bs) * bs ≤ total + bs - 1 := Nat.div_mul_le_self _ _
  cases hk : (total + bs - 1) / bs with
  | zero => rw [hk] at hj; simp at hj
  | succ k =>
    rw [hk] at hj hk2
    rw [List.range_succ, List.dropLast_concat, List.mem_range] at hj
    have hj2 : (j + 2) * bs ≤ (k + 1) * bs := Nat.mul_le_mul_right _ (by omega)
    have e1 : (j + 2) * bs = j * bs + bs + bs := by ring
    generalize hA : j * bs = A at *
    generalize hB : (j + 2) * bs = B at *
    generalize hC : (k + 1) * bs = C at *
    omega

/-- Claim C5: with streaming enabled the effective batch size is forced
to 1; with streaming disabled and `batch_size > 1` the `total_requests`
request indices are partitioned into consecutive batches (their
concatenation, in batch order, is exactly `range total_requests`), each
full batch of size `batch_size` and only the final batch possibly
shorter (but never empty); in particular `batch_size = 4` with
`total_requests = 10` gives exactly the batch sizes `[4, 4, 2]`.
Sequential completion of each batch before the next starts is the fold
over the batch list in `benchAccum`. -/
theorem C5_batch_partition (total bs : Nat) (hbs : 1 ≤ bs) :
    (∀ b : Nat, effectiveBatchSize true b = 1) ∧
    (mkBatches total bs).flatten = List.range total ∧
    (∀ b ∈ (mkBatches total bs).dropLast, b.length = bs) ∧
    (∀ b ∈ mkBatches total bs, 1 ≤ b.length ∧ b.length ≤ bs) ∧
    (mkBatches 10 4).map List.length = [4, 4, 2] :=
  ⟨fun _ => rfl, mkBatches_flatten total bs hbs,
    mkBatches_dropLast_length total bs hbs, mkBatches_mem_length total bs hbs,
    by decide⟩

/-- Witness for C5 at the spec's example: batch size 4 over 10 requests. -/
theorem C5_witness :
    1 ≤ 4 ∧
    ((∀ b : Nat, effectiveBatchSize true b = 1) ∧
      (mkBatches 10 4).flatten = List.range 10 ∧
      (∀ b ∈ (mkBatches 10 4).dropLast, b.length = 4) ∧
      (∀ b ∈ mkBatches 10 4, 1 ≤ b.length ∧ b.length ≤ 4) ∧
      (mkBatches 10 4).map List.length = [4, 4, 2]) :=
  ⟨by decide, C5_batch_partition 10 4 (by decide)⟩

theorem pyMaxBy_mem (f : TestRecord → ℚ) (xs : List TestRecord) :
    ∀ x : TestRecord, pyMaxBy f x xs = x ∨ pyMaxBy f x xs ∈ xs := by
  induction xs with
  | nil => intro x; exact Or.inl rfl
  | cons y ys ih =>
    intro x
    unfold pyMaxBy at ih ⊢
    simp only [List.foldl_cons]
    by_cases hc : f x < f y
    · rw [if_pos hc]
      rcases ih y with h | h
      · exact Or.inr (by simp [h])
      · exact Or.inr (by simp [h])
    · rw [if_neg hc]
      rcases ih x with h | h
      · exact Or.inl h
      · exact Or.inr (by simp [h])

theorem pyMaxBy_ge (f : TestRecord → ℚ) (xs : List TestRecord) :
    ∀ x : TestRecord,
      f x ≤ f (pyMaxBy f x xs) ∧ ∀ y ∈ xs, f y ≤ f (pyMaxBy f x xs) := by
  induction xs with
  | nil => intro x; exact ⟨le_refl _, by simp⟩
  | cons y ys ih =>
    intro x
    unfold pyMaxBy at ih ⊢
    simp only [List.foldl_cons]
    obtain ⟨h1, h2⟩ := ih (if f x < f y then y else x)
    constructor
    · refine le_trans ?_ h1
      by_cases hc : f x < f y
      · rw [if_pos hc]; exact le_of_lt hc
      · rw [if_neg hc]
    · intro z hz
      rcases List.mem_cons.mp hz with rfl | hz'
      · refine le_trans ?_ h1
        by_cases hc : f x < f z
        · rw [if_pos hc]
        · rw [if_neg hc]; exact le_of_not_lt hc
      · exact h2 z hz'

theorem pyMinBy_mem (f : TestRecord → ℚ) (xs : List TestRecord) :
    ∀ x : TestRecord, pyMinBy f x xs = x ∨ pyMinBy f x xs ∈ xs := by
  induction xs with
  | nil => intro x; exact Or.inl rfl
  | cons y ys ih =>
    intro x
    unfold pyMinBy at ih ⊢
    simp only [List.foldl_cons]
    by_cases hc : f y < f x
    · rw [if_pos hc]
      rcases ih y with h | h
      · exact Or.inr (by simp [h])
      · exact Or.inr (by simp [h])
    · rw [if_neg hc]
      rcases ih x with h | h
      · exact Or.inl h
      · exact Or.inr (by simp [h])

theorem pyMinBy_le (f : TestRecord → ℚ) (xs : List TestRecord) :
    ∀ x : TestRecord,
      f (pyMinBy f x xs) ≤ f x ∧ ∀ y ∈ xs, f (pyMinBy f x xs) ≤ f y := by
  induction xs with
  | nil => intro x; exact ⟨le_refl _, by simp⟩
  | cons y ys ih =>
    intro x
    unfold pyMinBy at ih ⊢
    simp only [List.foldl_cons]
    obtain ⟨h1, h2⟩ := ih (if f y < f x then y else x)
    constructor
    · refine le_trans h1 ?_
      by_cases hc : f y < f x
      · rw [if_pos hc]; exact le_of_lt hc
      · rw [if_neg hc]
    · intro z hz
      rcases List.mem_cons.mp hz with rfl | hz'
      · refine le_trans h1 ?_
        by_cases hc : f z < f x
        · rw [if_pos hc]
        · rw [if_neg hc]; exact le_of_not_lt hc
      · exact h2 z hz'

theorem sortByTpsDesc_head (tests : List TestRecord) (b : TestRecord)
    (rest : List TestRecord) (h : sortByTpsDesc tests = b :: rest) :
    b ∈ tests ∧ ∀ t ∈ tests, t.tokens_per_second ≤ b.tokens_per_second := by
  haveI ht : IsTotal TestRecord
      (fun a b => b.tokens_per_second ≤ a.tokens_per_second) :=
    ⟨fun a b => le_total b.tokens_per_second a.tokens_per_second⟩
  haveI htr : IsTrans TestRecord
      (fun a b => b.tokens_per_second ≤ a.tokens_per_second) :=
    ⟨fun _ _ _ hab hbc => le_trans hbc hab⟩
  have hsorted := List.sorted_insertionSort
    (fun a b => b.tokens_per_second ≤ a.tokens_per_second) tests
  have hperm := List.perm_insertionSort
    (fun a b => b.tokens_per_second ≤ a.tokens_per_second) tests
  rw [show tests.insertionSort (fun a b => b.tokens_per_second ≤ a.tokens_per_second)
        = sortByTpsDesc tests from rfl, h] at hsorted hperm
  constructor
  · exact hperm.subset (by simp)
  · intro t htm
    have ht' : t ∈ b :: rest := (hperm.mem_iff).mpr htm
    rcases List.mem_cons.mp ht' with rfl | ht''
    · exact le_refl _
    · exact List.rel_of_sorted_cons hsorted t ht''

/-- Claim C1: on a non-empty test list the Auto-Tuner's selection first
filters to records with no error and throughput at or above the
minimum-acceptable threshold; if none qualify it returns a record of
maximal throughput over the whole list; otherwise it returns, among the
qualifying records whose throughput is at least 90% of the maximum
qualifying throughput, one with the lowest mean latency (and on the
empty list it returns none). -/
theorem C1_selection_rule (tests : List TestRecord) :
    (tests = [] → find_best_config tests = none) ∧
    (tests ≠ [] →
      (validTests tests = [] →
        ∃ r, find_best_config tests = some r ∧ r ∈ tests ∧
          ∀ t ∈ tests, t.tokens_per_second ≤ r.tokens_per_second) ∧
      (validTests tests ≠ [] →
        ∃ r best, find_best_config tests = some r ∧
          best ∈ validTests tests ∧
          (∀ t ∈ validTests tests,
            t.tokens_per_second ≤ best.tokens_per_second) ∧
          r ∈ validTests tests ∧
          best.tokens_per_second * (9 / 10) ≤ r.tokens_per_second ∧
          ∀ t ∈ validTests tests,
            best.tokens_per_second * (9 / 10) ≤ t.tokens_per_second →
            r.latency ≤ t.latency)) := by
  constructor
  · rintro rfl; rfl
  · intro hne
    obtain ⟨t0, ts, rfl⟩ : ∃ t0 ts, tests = t0 :: ts := by
      cases tests with
      | nil => exact absurd rfl hne
      | cons a l => exact ⟨a, l, rfl⟩
    constructor
    · intro hv
      cases hs : sortByTpsDesc (t0 :: ts) with
      | nil =>
        have hperm := List.perm_insertionSort
          (fun a b => b.tokens_per_second ≤ a.tokens_per_second) (t0 :: ts)
        rw [show (t0 :: ts).insertionSort
              (fun a b => b.tokens_per_second ≤ a.tokens_per_second)
            = sortByTpsDesc (t0 :: ts) from rfl, hs] at hperm
        exact absurd hperm.symm (by simp)
      | cons b rest =>
        obtain ⟨hbmem, hble⟩ := sortByTpsDesc_head (t0 :: ts) b rest hs
        refine ⟨b, ?_, hbmem, hble⟩
        simp only [find_best_config, hv, hs]
    · intro hvne
      obtain ⟨v, vs, hv⟩ : ∃ v vs, validTests (t0 :: ts) = v :: vs := by
        cases hvv : validTests (t0 :: ts) with
        | nil => exact absurd hvv hvne
        | cons a l => exact ⟨a, l, rfl⟩
      have hbm : pyMaxBy (fun r => r.tokens_per_second) v vs ∈ validTests (t0 :: ts) := by
        rw [hv]
        rcases pyMaxBy_mem (fun r => r.tokens_per_second) vs v with h | h
        · rw [h]; exact List.mem_cons_self _ _
        · exact List.mem_cons_of_mem _ h
      have hbg : ∀ t ∈ validTests (t0 :: ts),
          t.tokens_per_second
            ≤ (pyMaxBy (fun r => r.tokens_per_second) v vs).tokens_per_second := by
        intro t ht
        rw [hv] at ht
        obtain ⟨h1, h2⟩ := pyMaxBy_ge (fun r => r.tokens_per_second) vs v
        rcases List.mem_cons.mp ht with rfl | ht'
        · exact h1
        · exact h2 t ht'
      have hb0 : (0 : ℚ)
          ≤ (pyMaxBy (fun r => r.tokens_per_second) v vs).tokens_per_second := by
        have h := hbm
        simp only [validTests, List.mem_filter, Bool.and_eq_true,
          Bool.not_eq_true', decide_eq_true_eq] at h
        refine le_trans ?_ h.2.2
        norm_num [MIN_ACCEPTABLE_TPS]
      have hq : (pyMaxBy (fun r => r.tokens_per_second) v vs).tokens_per_second * (9 / 10)
          ≤ (pyMaxBy (fun r => r.tokens_per_second) v vs).tokens_per_second :=
        mul_le_of_le_one_right hb0 (by norm_num)
      have hbnear : pyMaxBy (fun r => r.tokens_per_second) v vs
          ∈ (validTests (t0 :: ts)).filter fun t =>
            (pyMaxBy (fun r => r.tokens_per_second) v vs).tokens_per_second * (9 / 10)
              ≤ t.tokens_per_second := by
        refine List.mem_filter.mpr ⟨hbm, ?_⟩
        simpa using hq
      cases hnb : (validTests (t0 :: ts)).filter
          (fun t =>
            (pyMaxBy (fun r => r.tokens_per_second) v vs).tokens_per_second * (9 / 10)
              ≤ t.tokens_per_second) with
      | nil => rw [hnb] at hbnear; exact absurd hbnear (by simp)
      | cons n ns =>
        have hrmem : pyMinBy (fun r => r.latency) n ns ∈ n :: ns := by
          rcases pyMinBy_mem (fun r => r.latency) ns n with h | h
          · rw [h]; exact List.mem_cons_self _ _
          · exact List.mem_cons_of_mem _ h
        have hrfilter : pyMinBy (fun r => r.latency) n ns
            ∈ (validTests (t0 :: ts)).filter fun t =>
              (pyMaxBy (fun r => r.tokens_per_second) v vs).tokens_per_second * (9 / 10)
                ≤ t.tokens_per_second := by
          rw [hnb]; exact hrmem
        have hrprops := List.mem_filter.mp hrfilter
        have hrnear : (pyMaxBy (fun r => r.tokens_per_second) v vs).tokens_per_second
              * (9 / 10)
            ≤ (pyMinBy (fun r => r.latency) n ns).tokens_per_second := by
          have h2 := hrprops.2
          simpa using h2
        have hrmin : ∀ t ∈ validTests (t0 :: ts),
            (pyMaxBy (fun r => r.tokens_per_second) v vs).tokens_per_second * (9 / 10)
                ≤ t.tokens_per_second →
            (pyMinBy (fun r => r.latency) n ns).latency ≤ t.latency := by
          intro t ht htq
          have htfilter : t ∈ (validTests (t0 :: ts)).filter fun u =>
              (pyMaxBy (fun r => r.tokens_per_second) v vs).tokens_per_second * (9 / 10)
                ≤ u.tokens_per_second :=
            List.mem_filter.mpr ⟨ht, by simpa using htq⟩
          rw [hnb] at htfilter
          obtain ⟨h1, h2⟩ := pyMinBy_le (fun r => r.latency) ns n
          rcases List.mem_cons.mp htfilter with rfl | ht'
          · exact h1
          · exact h2 t ht'
        refine ⟨pyMinBy (fun r => r.latency) n ns,
          pyMaxBy (fun r => r.tokens_per_second) v vs, ?_, hbm, hbg,
          hrprops.1, hrnear, hrmin⟩
        simp only [find_best_config, hv]
        rw [show ((v :: vs).filter fun t =>
              decide ((pyMaxBy (fun r => r.tokens_per_second) v vs).tokens_per_second
                  * (9 / 10) ≤ t.tokens_per_second))
            = n :: ns from by rw [← hv]; exact hnb]

/-- Witness for C1 at the spec's example records: all three qualify, so
the selection returns a qualifying record within 10% of the maximum
throughput with the lowest latency among those. -/
theorem C1_witness :
    exampleTests ≠ [] ∧ validTests exampleTests ≠ [] ∧
    (∃ r best, find_best_config exampleTests = some r ∧
      best ∈ validTests exampleTests ∧
      (∀ t ∈ validTests exampleTests,
        t.tokens_per_second ≤ best.tokens_per_second) ∧
      r ∈ validTests exampleTests ∧
      best.tokens_per_second * (9 / 10) ≤ r.tokens_per_second ∧
      ∀ t ∈ validTests exampleTests,
        best.tokens_per_second * (9 / 10) ≤ t.tokens_per_second →
        r.latency ≤ t.latency) :=
  ⟨by decide, by decide,
    ((C1_selection_rule exampleTests).2 (by decide)).2 (by decide)⟩

/-- The spec's worked example, checked concretely: with records
(tps 100, latency 50, concurrency 8), (tps 95, latency 20,
concurrency 16) and (tps 60, latency 10, concurrency 32), the selected
configuration is the concurrency-16 record — not the higher-throughput
concurrency-8 one. -/
theorem exampleTests_selects_concurrency16 :
    (find_best_config exampleTests).map (fun r => r.concurrency) = some 16 := by
  norm_num [find_best_config, validTests, MIN_ACCEPTABLE_TPS, pyMaxBy, pyMinBy,
    exampleTests]

end NimBench
